import Mathlib

/-!
Shallow embedding of langfun core execution engine
(langfun/core/coding/python/execution.py): the thread-scoped symbol
context stack (`context` / `get_context`), the evaluation engine
(`run`), and the process-isolation runner (`sandbox_call`,
`sandbox_run`).

Modelling conventions:
* Python values that the claims touch are integers plus the None
  singleton (`Val`).
* A Python dict is an insertion-ordered association list (`Dict`):
  updating an existing key keeps its position, a fresh key is appended
  at the end, matching CPython dict semantics that
  `list(d.values())[-1]` relies on.
* The external parser/policy checker (module `parsing`, out of scope
  per the spec) is a function parameter of `run`; the permission token
  is an opaque value forwarded to it unchanged.
* Exceptions become `Except` errors; `run` distinguishes faults wrapped
  into `errors.CodeError` from faults that propagate unwrapped.
* The worker process of `sandbox_call` is modelled by the observable
  behaviour of the callable: it terminates after some duration with a
  value, terminates by raising, or never terminates.  Wall-clock time
  is measured in whole seconds (`Nat`).
-/

/-- Python values appearing in evaluated programs: integers and None. -/
inductive Val where
  | int : Int → Val
  | none : Val
deriving DecidableEq, Repr

/-- A Python dict with insertion order: an association list with unique
keys, where updating an existing key keeps its position. -/
def Dict : Type := List (String × Val)

instance : DecidableEq Dict := by
  unfold Dict
  infer_instance

instance : Repr Dict := by
  unfold Dict
  infer_instance

/-- Dict literal from a list of pairs (used in concrete examples). -/
def Dict.ofList (l : List (String × Val)) : Dict := l

/-- Lookup of `d[key]` as CPython does: first matching key. -/
def Dict.get? : Dict → String → Option Val
  | [], _ => Option.none
  | kv :: rest, key => if kv.1 = key then some kv.2 else Dict.get? rest key

/-- Assignment `d[key] = val`: an existing key keeps its insertion
position, a fresh key is appended at the end. -/
def Dict.set : Dict → String → Val → Dict
  | [], key, val => [(key, val)]
  | kv :: rest, key, val =>
      if kv.1 = key then (key, val) :: rest else kv :: Dict.set rest key val

/-- The statement `d.update(updates)`: sets every pair of `updates` in
order. -/
def Dict.updateAll (d : Dict) (updates : Dict) : Dict :=
  List.foldl (fun acc kv => Dict.set acc kv.1 kv.2) d updates

/-- The expression `list(d.values())[-1]` (None when the dict is empty,
where CPython raises IndexError). -/
def Dict.lastValue? (d : Dict) : Option Val :=
  List.getLast? (List.map Prod.snd d)

/-- Exceptions that evaluating an embedded program can raise. -/
inductive PyErr where
  | nameError (name : String)
  | typeError
  | zeroDivisionError
  | indexError
deriving DecidableEq, Repr

/-- Expressions of the embedded Python fragment. -/
inductive PyExpr where
  | const : Int → PyExpr
  | noneLit : PyExpr
  | name : String → PyExpr
  | add : PyExpr → PyExpr → PyExpr
  | floorDiv : PyExpr → PyExpr → PyExpr
deriving DecidableEq, Repr

/-- Top-level statements of the embedded Python fragment.  `exprStmt`
is `ast.Expr`, `assign` is `ast.Assign` with plain-name targets,
`augAssign` is `ast.AugAssign` for `x += e`, and `passStmt` is a
statement without a `value` field (`ast.Pass`). -/
inductive Stmt where
  | exprStmt : PyExpr → Stmt
  | assign : List String → PyExpr → Stmt
  | augAssign : String → PyExpr → Stmt
  | passStmt : Stmt
deriving DecidableEq, Repr

/-- The check `hasattr(node, 'value')` together with the read of
`node.value`: every constructor except `passStmt` carries a value
expression. -/
def Stmt.value? : Stmt → Option PyExpr
  | .exprStmt e => some e
  | .assign _ e => some e
  | .augAssign _ e => some e
  | .passStmt => Option.none

/-- The target names collected by the `isinstance(last_expr, ast.Assign)`
branch: the `.id` of each target of an `ast.Assign`, nothing otherwise
(note `ast.AugAssign` is not an `ast.Assign`). -/
def Stmt.assignTargets : Stmt → List String
  | .assign targets _ => targets
  | _ => []

/-- Name resolution of `eval`/`exec` with separate global and local
dicts: locals first, then globals. -/
def lookupName (globalVars localVars : Dict) (x : String) : Option Val :=
  match Dict.get? localVars x with
  | some v => some v
  | Option.none => Dict.get? globalVars x

/-- Integer addition; any operand that is not an int raises TypeError. -/
def Val.add : Val → Val → Except PyErr Val
  | .int a, .int b => .ok (.int (a + b))
  | _, _ => .error .typeError

/-- Python floor division `a // b`; division by zero raises
ZeroDivisionError, non-int operands raise TypeError. -/
def Val.floorDiv : Val → Val → Except PyErr Val
  | .int a, .int b =>
      if b = 0 then .error .zeroDivisionError else .ok (.int (Int.fdiv a b))
  | _, _ => .error .typeError

/-- Expression evaluation against global and local dicts, as performed
by `eval(compile(last_expr, mode=eval), global_vars, local_vars)`. -/
def evalExpr (globalVars localVars : Dict) : PyExpr → Except PyErr Val
  | .const n => .ok (.int n)
  | .noneLit => .ok .none
  | .name x =>
      match lookupName globalVars localVars x with
      | some v => .ok v
      | Option.none => .error (.nameError x)
  | .add a b => do
      let x ← evalExpr globalVars localVars a
      let y ← evalExpr globalVars localVars b
      Val.add x y
  | .floorDiv a b => do
      let x ← evalExpr globalVars localVars a
      let y ← evalExpr globalVars localVars b
      Val.floorDiv x y

/-- One statement executed by `exec` with separate global and local
dicts: assignments write to the local dict; the global dict is
read-only for these statement forms. -/
def execStmt (globalVars localVars : Dict) : Stmt → Except PyErr Dict
  | .exprStmt e => do
      let _ ← evalExpr globalVars localVars e
      pure localVars
  | .assign targets e => do
      let v ← evalExpr globalVars localVars e
      pure (List.foldl (fun acc t => Dict.set acc t v) localVars targets)
  | .augAssign x e => do
      let cur ←
        match lookupName globalVars localVars x with
        | some v => Except.ok v
        | Option.none => Except.error (PyErr.nameError x)
      let rhs ← evalExpr globalVars localVars e
      let v ← Val.add cur rhs
      pure (Dict.set localVars x v)
  | .passStmt => pure localVars

/-- `exec(compile(code_block, mode=exec), global_vars, local_vars)`:
runs the statements in order, threading the local dict, stopping at the
first raised exception. -/
def execStmts (globalVars : Dict) (localVars : Dict) :
    List Stmt → Except PyErr Dict
  | [] => .ok localVars
  | s :: rest => do
      let l ← execStmt globalVars localVars s
      execStmts globalVars l rest

/-- Key in the returned dict that represents the final result. -/
def RESULT_KEY : String := "__result__"

/-- Opaque permission token (`permissions.CodePermission`); the engine
never inspects it, only forwards it to the parser/checker. -/
structure CodePermission where
  id : Nat
deriving DecidableEq, Repr

/-- The process-wide default permission returned by
`permissions.get_permission()`. -/
def defaultPermission : CodePermission := ⟨0⟩

/-- Faults of the external parser/policy checker
(`parsing.PythonCodeParser().parse`), raised before any evaluation. -/
inductive ParseFault where
  | invalidSource (msg : String)
  | policyViolation (msg : String)
deriving DecidableEq, Repr

/-- Faults escaping `run`: `codeError` is `errors.CodeError(code, cause)`
wrapping an exception raised while executing or evaluating the program;
`parseFault` is a parser/checker fault propagating unchanged; `uncaught`
is an exception raised by `run` itself outside any try block. -/
inductive RunErr where
  | codeError (source : String) (cause : PyErr)
  | parseFault (f : ParseFault)
  | uncaught (e : PyErr)
deriving DecidableEq, Repr

/-- The thread-local context stack (`_TLS_CODE_RUN_CONTEXT`): a list of
frames, most recent first.  The stack starts empty at process start. -/
def ContextStack : Type := List Dict

/-- `get_context()`: a copy of the top frame, or an empty dict when the
stack is empty. -/
def get_context (stack : ContextStack) : Dict :=
  match stack with
  | [] => Dict.ofList []
  | top :: _ => top

/-- The push half of the `context(**kwargs)` context manager: the new
frame is a copy of the current flattened context updated with the
pushed bindings. -/
def context_push (stack : ContextStack) (kwargs : Dict) : ContextStack :=
  Dict.updateAll (get_context stack) kwargs :: stack

/-- `pg.object_utils.thread_local_pop`: drops the top frame. -/
def context_pop : ContextStack → ContextStack
  | [] => []
  | _ :: rest => rest

/-- The whole `with context(**kwargs)` block around a body that either
returns a result or raises: the frame is pushed before the body runs
and popped in the `finally` clause on both exit paths.  Returns the
body outcome and the stack after the block exits. -/
def contextScope {ε α : Type} (stack : ContextStack) (kwargs : Dict)
    (body : Except ε α) : Except ε α × ContextStack :=
  let pushed := context_push stack kwargs
  match body with
  | .ok a => (.ok a, context_pop pushed)
  | .error e => (.error e, context_pop pushed)

/-- The ambient context of one `run` call:
`ctx = dict(get_context()); ctx.update(kwargs)`. -/
def ambientContext (stack : ContextStack) (kwargs : Dict) : Dict :=
  Dict.updateAll (get_context stack) kwargs

/-- `run(code, perm, **kwargs)`, parameterised by the external
parser/checker `parse` (out of scope per the spec) and the explicit
thread context stack.  Mirrors execution.py lines 51-109: resolve the
permission, build the ambient context, parse, split off a trailing
statement that has a `value` field, execute, evaluate, and fill in the
result keys. -/
def run
    (parse : String → CodePermission → Except ParseFault (String × List Stmt))
    (stack : ContextStack) (source : String) (perm : Option CodePermission)
    (kwargs : Dict) : Except RunErr Dict :=
  match parse source (perm.getD defaultPermission) with
  | .error f => .error (.parseFault f)
  | .ok (code, body) =>
      match List.getLast? body with
      | Option.none => .error (.uncaught .indexError)
      | some last =>
          match last.value? with
          | some lastVal =>
              match execStmts (ambientContext stack kwargs) (Dict.ofList [])
                  (List.dropLast body) with
              | .error e => .error (.codeError code e)
              | .ok l =>
                  match evalExpr (ambientContext stack kwargs) l lastVal with
                  | .error e => .error (.codeError code e)
                  | .ok r =>
                      .ok (List.foldl (fun acc v => Dict.set acc v r) l
                        (RESULT_KEY :: last.assignTargets))
          | Option.none =>
              match execStmts (ambientContext stack kwargs) (Dict.ofList [])
                  body with
              | .error e => .error (.codeError code e)
              | .ok l =>
                  match Dict.lastValue? l with
                  | Option.none => .error (.uncaught .indexError)
                  | some v => .ok (Dict.set l RESULT_KEY v)

/-- An exception value with the message it was constructed from, as
transported through the multiprocessing queue. -/
structure Exc where
  message : String
deriving DecidableEq, Repr

/-- Serialization of the worker result: `pg.to_json_str` on the way in
and `pg.from_json_str` on the way out. -/
structure Codec (α σ : Type) where
  to_json_str : α → σ
  from_json_str : σ → α

/-- Observable behaviour of the callable handed to `sandbox_call`: it
terminates after `duration` seconds with a value, terminates after
`duration` seconds by raising, or never terminates. -/
inductive FuncBehavior (α ε : Type) where
  | returns (duration : Nat) (value : α)
  | raises (duration : Nat) (exc : ε)
  | diverges
deriving DecidableEq, Repr

/-- The single message the worker writes to the queue: a serialized
value for a normal return (`q.put(pg.to_json_str(...))`), or the caught
exception object itself (`q.put(e)`).  A diverging callable writes
nothing. -/
inductive QueueMsg (σ ε : Type) where
  | json (payload : σ)
  | exc (e : ε)
deriving DecidableEq, Repr

/-- What the worker entry point `_call` leaves on the queue. -/
def workerMsg {α σ ε : Type} (codec : Codec α σ) :
    FuncBehavior α ε → Option (QueueMsg σ ε)
  | .returns _ v => some (.json (codec.to_json_str v))
  | .raises _ e => some (.exc e)
  | .diverges => Option.none

/-- Whether `p.join(timeout=t)` finds the worker finished: true exactly
when the callable terminates within `t` seconds. -/
def completesWithin {α ε : Type} : FuncBehavior α ε → Nat → Bool
  | .returns d _, t => decide (d ≤ t)
  | .raises d _, t => decide (d ≤ t)
  | .diverges, _ => false

/-- The TimeoutError message raised by `sandbox_call`, naming the
configured duration. -/
def timeoutMessage (t : Nat) : String :=
  "Execution time exceed " ++ toString t ++ " seconds."

/-- Outcome of one `sandbox_call` as seen by the caller. -/
inductive SandboxResult (α ε : Type) where
  | value (v : α)
  | fault (e : ε)
  | timeoutError (msg : String)
deriving DecidableEq, Repr

/-- Result of a `sandbox_call` together with whether the worker process
is still running after the call returns or raises. -/
structure CallOutcome (α ε : Type) where
  result : SandboxResult α ε
  workerAlive : Bool
deriving DecidableEq, Repr

/-- Reading the queue after the worker finished: the isinstance check
`isinstance(x, Exception)` distinguishes the raw exception object from
the serialized-string success payload; a success payload is
deserialized with `pg.from_json_str`. -/
def readQueue {α σ ε : Type} (codec : Codec α σ) :
    QueueMsg σ ε → CallOutcome α ε
  | .json s => ⟨.value (codec.from_json_str s), false⟩
  | .exc e => ⟨.fault e, false⟩

/-- `sandbox_call(func, *args, timeout, **kwargs)` (execution.py lines
112-149), with the callable abstracted by its behaviour.  `none` as the
overall result models the call never returning (`p.join()` blocking
forever on a diverging callable with no timeout).  On timeout expiry
the worker is terminated and a TimeoutError naming the duration is
raised; otherwise the single queue message is read back. -/
def sandbox_call {α σ ε : Type} (codec : Codec α σ)
    (beh : FuncBehavior α ε) (timeout : Option Nat) :
    Option (CallOutcome α ε) :=
  match timeout with
  | Option.none =>
      match workerMsg codec beh with
      | Option.none => Option.none
      | some msg => some (readQueue codec msg)
  | some t =>
      if completesWithin beh t then
        match workerMsg codec beh with
        | Option.none => Option.none
        | some msg => some (readQueue codec msg)
      else
        some ⟨.timeoutError (timeoutMessage t), false⟩

/-- The value of the Python keyword argument `time=timeout` as a symbol
binding: the int, or None when no timeout was given. -/
def timeArgVal : Option Int → Val
  | Option.none => .none
  | some n => .int n

/-- Behaviour of `run` when used as the callable of `sandbox_call`:
it is deterministic, so it terminates after some duration with either
its result dict or its raised fault. -/
def runBehavior (res : Except RunErr Dict) (duration : Nat) :
    FuncBehavior Dict RunErr :=
  match res with
  | .ok m => .returns duration m
  | .error e => .raises duration e

/-- `sandbox_run(code, perm, timeout, **kwargs)` (execution.py lines
152-174): the body is `sandbox_call(run, code, perm, time=timeout,
**kwargs)`.  The keyword `time` does not match the `timeout` parameter
of `sandbox_call`, so it lands in `**kwargs` and is forwarded to `run`
as the extra binding "time", while `sandbox_call` runs with its default
`timeout=None`.  `runDuration` is how long the `run` call takes inside
the worker. -/
def sandbox_run {σ : Type} (codec : Codec Dict σ)
    (parse : String → CodePermission → Except ParseFault (String × List Stmt))
    (stack : ContextStack) (source : String) (perm : Option CodePermission)
    (timeout : Option Int) (kwargs : Dict) (runDuration : Nat) :
    Option (CallOutcome Dict RunErr) :=
  let kw := Dict.updateAll (Dict.ofList [("time", timeArgVal timeout)]) kwargs
  sandbox_call codec (runBehavior (run parse stack source perm kw) runDuration)
    Option.none

/-- Identity codec on dicts, standing for a serialization on which
every dict round-trips. -/
def idDictCodec : Codec Dict Dict := ⟨fun d => d, fun d => d⟩

/-- Identity codec on ints, used for concrete sandbox examples. -/
def intCodec : Codec Int Int := ⟨fun n => n, fun n => n⟩

/-- Setting a key makes it readable with that value. -/
theorem Dict.get?_set_self (d : Dict) (k : String) (v : Val) :
    Dict.get? (Dict.set d k v) k = some v := by
  induction d with
  | nil => simp [Dict.set, Dict.get?]
  | cons kv rest ih =>
      by_cases h : kv.1 = k
      · simp [Dict.set, Dict.get?, h]
      · simp [Dict.set, Dict.get?, h, ih]

/-- Setting one key leaves the lookup of a different key unchanged. -/
theorem Dict.get?_set_ne (d : Dict) (k k' : String) (v : Val)
    (hne : k' ≠ k) : Dict.get? (Dict.set d k' v) k = Dict.get? d k := by
  induction d with
  | nil => simp [Dict.set, Dict.get?, hne]
  | cons kv rest ih =>
      by_cases h : kv.1 = k'
      · simp [Dict.set, Dict.get?, h, hne]
      · simp only [Dict.set, h, if_false]
        by_cases h2 : kv.1 = k
        · simp [Dict.get?, h2]
        · simp [Dict.get?, h2, ih]

/-- Folding `Dict.set` with one fixed value over a list of keys
preserves any key already bound to that value. -/
theorem Dict.get?_setFold_preserve (ks : List String) (d : Dict)
    (k : String) (v : Val) (h : Dict.get? d k = some v) :
    Dict.get? (List.foldl (fun acc t => Dict.set acc t v) d ks) k = some v := by
  induction ks generalizing d with
  | nil => simpa using h
  | cons a rest ih =>
      simp only [List.foldl_cons]
      apply ih
      by_cases hak : a = k
      · subst hak; exact Dict.get?_set_self d a v
      · rw [Dict.get?_set_ne d k a v hak]; exact h

/-- After folding `Dict.set` with one fixed value over a list of keys,
every key of the list reads back that value. -/
theorem Dict.get?_setFold_mem (ks : List String) (d : Dict)
    (k : String) (v : Val) (hk : k ∈ ks) :
    Dict.get? (List.foldl (fun acc t => Dict.set acc t v) d ks) k = some v := by
  induction ks generalizing d with
  | nil => cases hk
  | cons a rest ih =>
      simp only [List.foldl_cons]
      rcases List.mem_cons.mp hk with h | h
      · subst h
        exact Dict.get?_setFold_preserve rest _ k v (Dict.get?_set_self d k v)
      · exact ih _ h

/-- Claim C2: for every program whose final top-level statement is a
plain expression `e`, `run` returns a binding map whose reserved key
`__result__` equals the value of `e` evaluated after all preceding
statements have executed. -/
theorem run_trailing_expr
    (parse : String → CodePermission → Except ParseFault (String × List Stmt))
    (stack : ContextStack) (source code : String) (perm : Option CodePermission)
    (kwargs : Dict) (rest : List Stmt) (e : PyExpr) (l : Dict) (v : Val)
    (hparse : parse source (perm.getD defaultPermission)
      = Except.ok (code, rest ++ [Stmt.exprStmt e]))
    (hexec : execStmts (ambientContext stack kwargs) (Dict.ofList []) rest
      = Except.ok l)
    (heval : evalExpr (ambientContext stack kwargs) l e = Except.ok v) :
    run parse stack source perm kwargs = Except.ok (Dict.set l RESULT_KEY v)
    ∧ Dict.get? (Dict.set l RESULT_KEY v) RESULT_KEY = some v := by
  constructor
  · unfold run
    rw [hparse]
    simp [List.getLast?_concat, List.dropLast_concat, Stmt.value?,
      Stmt.assignTargets, hexec, heval]
  · exact Dict.get?_set_self l RESULT_KEY v

/-- Claim C2 witness: source "a = 1\na + 2" with no extra bindings
yields the binding map with a bound to 1 and the reserved key bound
to 3. -/
theorem run_trailing_expr_witness :
    run (fun _ _ => Except.ok ("a = 1\na + 2",
        [Stmt.assign ["a"] (PyExpr.const 1),
         Stmt.exprStmt (PyExpr.add (PyExpr.name "a") (PyExpr.const 2))]))
      [] "a = 1\na + 2" Option.none (Dict.ofList [])
      = Except.ok (Dict.ofList [("a", Val.int 1), ("__result__", Val.int 3)])
    ∧ Dict.get? (Dict.ofList [("a", Val.int 1), ("__result__", Val.int 3)])
        "__result__" = some (Val.int 3) :=
  run_trailing_expr
    (fun _ _ => Except.ok ("a = 1\na + 2",
        [Stmt.assign ["a"] (PyExpr.const 1),
         Stmt.exprStmt (PyExpr.add (PyExpr.name "a") (PyExpr.const 2))]))
    [] "a = 1\na + 2" "a = 1\na + 2" Option.none (Dict.ofList [])
    [Stmt.assign ["a"] (PyExpr.const 1)]
    (PyExpr.add (PyExpr.name "a") (PyExpr.const 2))
    (Dict.ofList [("a", Val.int 1)]) (Val.int 3) rfl rfl rfl

/-- Claim C3: for every program whose final top-level statement is an
assignment with any number of plain-name targets, `run` returns the
assigned value under the reserved key `__result__` and under every
target name. -/
theorem run_trailing_assign
    (parse : String → CodePermission → Except ParseFault (String × List Stmt))
    (stack : ContextStack) (source code : String) (perm : Option CodePermission)
    (kwargs : Dict) (rest : List Stmt) (targets : List String) (e : PyExpr)
    (l : Dict) (v : Val)
    (hparse : parse source (perm.getD defaultPermission)
      = Except.ok (code, rest ++ [Stmt.assign targets e]))
    (hexec : execStmts (ambientContext stack kwargs) (Dict.ofList []) rest
      = Except.ok l)
    (heval : evalExpr (ambientContext stack kwargs) l e = Except.ok v) :
    run parse stack source perm kwargs
      = Except.ok (List.foldl (fun acc t => Dict.set acc t v) l
          (RESULT_KEY :: targets))
    ∧ ∀ t ∈ RESULT_KEY :: targets,
        Dict.get? (List.foldl (fun acc t => Dict.set acc t v) l
          (RESULT_KEY :: targets)) t = some v := by
  constructor
  · unfold run
    rw [hparse]
    simp [List.getLast?_concat, List.dropLast_concat, Stmt.value?,
      Stmt.assignTargets, hexec, heval]
  · intro t ht
    exact Dict.get?_setFold_mem (RESULT_KEY :: targets) l t v ht

/-- Claim C3 witness: source "x = 5" yields the binding map where both
the reserved key and x are bound to 5. -/
theorem run_trailing_assign_witness :
    run (fun _ _ => Except.ok ("x = 5", [Stmt.assign ["x"] (PyExpr.const 5)]))
      [] "x = 5" Option.none (Dict.ofList [])
      = Except.ok (Dict.ofList [("__result__", Val.int 5), ("x", Val.int 5)])
    ∧ ∀ t ∈ ["__result__", "x"],
        Dict.get? (Dict.ofList [("__result__", Val.int 5), ("x", Val.int 5)]) t
          = some (Val.int 5) := by
  have h := run_trailing_assign
    (fun _ _ => Except.ok ("x = 5", [Stmt.assign ["x"] (PyExpr.const 5)]))
    [] "x = 5" "x = 5" Option.none (Dict.ofList []) [] ["x"] (PyExpr.const 5)
    (Dict.ofList []) (Val.int 5) rfl rfl rfl
  exact h

/-- Claim C4: for every program whose final top-level statement has no
value field, `run` executes the whole program for effect and binds the
reserved key `__result__` to the value of the last name added to the
scratch mapping in insertion order. -/
theorem run_trailing_nonexpr
    (parse : String → CodePermission → Except ParseFault (String × List Stmt))
    (stack : ContextStack) (source code : String) (perm : Option CodePermission)
    (kwargs : Dict) (body : List Stmt) (last : Stmt) (l : Dict) (v : Val)
    (hparse : parse source (perm.getD defaultPermission)
      = Except.ok (code, body))
    (hlast : List.getLast? body = some last)
    (hnoval : last.value? = Option.none)
    (hexec : execStmts (ambientContext stack kwargs) (Dict.ofList []) body
      = Except.ok l)
    (hlv : Dict.lastValue? l = some v) :
    run parse stack source perm kwargs
      = Except.ok (Dict.set l RESULT_KEY v)
    ∧ Dict.get? (Dict.set l RESULT_KEY v) RESULT_KEY = some v := by
  constructor
  · unfold run
    rw [hparse]
    simp [hlast, hnoval, hexec, hlv]
  · exact Dict.get?_set_self l RESULT_KEY v

/-- Claim C4 witness: source "x = 1\npass" executes the whole program
and adopts x, the most recently introduced local, as the result. -/
theorem run_trailing_nonexpr_witness :
    run (fun _ _ => Except.ok ("x = 1\npass",
        [Stmt.assign ["x"] (PyExpr.const 1), Stmt.passStmt]))
      [] "x = 1\npass" Option.none (Dict.ofList [])
      = Except.ok (Dict.ofList [("x", Val.int 1), ("__result__", Val.int 1)])
    ∧ Dict.get? (Dict.ofList [("x", Val.int 1), ("__result__", Val.int 1)])
        "__result__" = some (Val.int 1) :=
  run_trailing_nonexpr
    (fun _ _ => Except.ok ("x = 1\npass",
        [Stmt.assign ["x"] (PyExpr.const 1), Stmt.passStmt]))
    [] "x = 1\npass" "x = 1\npass" Option.none (Dict.ofList [])
    [Stmt.assign ["x"] (PyExpr.const 1), Stmt.passStmt] Stmt.passStmt
    (Dict.ofList [("x", Val.int 1)]) (Val.int 1) rfl rfl rfl rfl rfl

/-- Claim C10: for every program whose final top-level statement is an
augmented assignment x += e, `run` classifies it as expression-valued,
removes it, evaluates only its right-hand side e, stores that value
under the reserved key alone, and never applies the augmented
assignment, so x keeps the value it had before the final statement. -/
theorem run_trailing_augassign
    (parse : String → CodePermission → Except ParseFault (String × List Stmt))
    (stack : ContextStack) (source code : String) (perm : Option CodePermission)
    (kwargs : Dict) (rest : List Stmt) (x : String) (e : PyExpr)
    (l : Dict) (v : Val)
    (hparse : parse source (perm.getD defaultPermission)
      = Except.ok (code, rest ++ [Stmt.augAssign x e]))
    (hexec : execStmts (ambientContext stack kwargs) (Dict.ofList []) rest
      = Except.ok l)
    (heval : evalExpr (ambientContext stack kwargs) l e = Except.ok v)
    (hx : x ≠ RESULT_KEY) :
    run parse stack source perm kwargs = Except.ok (Dict.set l RESULT_KEY v)
    ∧ Dict.get? (Dict.set l RESULT_KEY v) x = Dict.get? l x := by
  constructor
  · unfold run
    rw [hparse]
    simp [List.getLast?_concat, List.dropLast_concat, Stmt.value?,
      Stmt.assignTargets, hexec, heval]
  · exact Dict.get?_set_ne l x RESULT_KEY v (fun h => hx h.symm)

/-- Claim C10 witness: source "x = 1\nx += 5" yields x still bound to 1
and the reserved key bound to 5; the augmented assignment is dropped. -/
theorem run_trailing_augassign_witness :
    run (fun _ _ => Except.ok ("x = 1\nx += 5",
        [Stmt.assign ["x"] (PyExpr.const 1),
         Stmt.augAssign "x" (PyExpr.const 5)]))
      [] "x = 1\nx += 5" Option.none (Dict.ofList [])
      = Except.ok (Dict.ofList [("x", Val.int 1), ("__result__", Val.int 5)])
    ∧ Dict.get? (Dict.ofList [("x", Val.int 1), ("__result__", Val.int 5)]) "x"
        = Dict.get? (Dict.ofList [("x", Val.int 1)]) "x" :=
  run_trailing_augassign
    (fun _ _ => Except.ok ("x = 1\nx += 5",
        [Stmt.assign ["x"] (PyExpr.const 1),
         Stmt.augAssign "x" (PyExpr.const 5)]))
    [] "x = 1\nx += 5" "x = 1\nx += 5" Option.none (Dict.ofList [])
    [Stmt.assign ["x"] (PyExpr.const 1)] "x" (PyExpr.const 5)
    (Dict.ofList [("x", Val.int 1)]) (Val.int 5) rfl rfl rfl (by decide)

/-- Claim C9: if the final top-level statement has no value field and
executing the whole program introduces no local bindings, `run` fails
with the IndexError from taking the last element of the empty scratch
mapping, and that error is not wrapped as a CodeError carrying the
source, because the result-adoption step lies outside the try block. -/
theorem run_empty_scratch
    (parse : String → CodePermission → Except ParseFault (String × List Stmt))
    (stack : ContextStack) (source code : String) (perm : Option CodePermission)
    (kwargs : Dict) (body : List Stmt) (last : Stmt)
    (hparse : parse source (perm.getD defaultPermission)
      = Except.ok (code, body))
    (hlast : List.getLast? body = some last)
    (hnoval : last.value? = Option.none)
    (hexec : execStmts (ambientContext stack kwargs) (Dict.ofList []) body
      = Except.ok (Dict.ofList [])) :
    run parse stack source perm kwargs
      = Except.error (RunErr.uncaught PyErr.indexError)
    ∧ ∀ (src : String) (c : PyErr),
        RunErr.uncaught PyErr.indexError ≠ RunErr.codeError src c := by
  constructor
  · unfold run
    rw [hparse]
    simp only [hlast, hnoval, hexec]
    simp [Dict.lastValue?, Dict.ofList]
  · intro src c h
    cases h

/-- Claim C9 witness: source "pass" leaves the scratch mapping empty
and run fails with an unwrapped IndexError. -/
theorem run_empty_scratch_witness :
    run (fun _ _ => Except.ok ("pass", [Stmt.passStmt]))
      [] "pass" Option.none (Dict.ofList [])
      = Except.error (RunErr.uncaught PyErr.indexError)
    ∧ RunErr.uncaught PyErr.indexError
        ≠ RunErr.codeError "pass" PyErr.indexError := by
  have h := run_empty_scratch
    (fun _ _ => Except.ok ("pass", [Stmt.passStmt]))
    [] "pass" "pass" Option.none (Dict.ofList []) [Stmt.passStmt] Stmt.passStmt
    rfl rfl rfl rfl
  exact ⟨h.1, h.2 "pass" PyErr.indexError⟩

/-- Claim C5: every fault raised while executing the program's
statements or evaluating its trailing expression is wrapped by `run`
into a CodeError carrying the source text and the underlying cause, on
every execution path; a fault raised by the parser/policy checker
propagates out of `run` unchanged and is never a CodeError. -/
theorem run_fault_wrapping
    (parse : String → CodePermission → Except ParseFault (String × List Stmt))
    (stack : ContextStack) (source : String) (perm : Option CodePermission)
    (kwargs : Dict) :
    (∀ f : ParseFault,
        parse source (perm.getD defaultPermission) = Except.error f →
        run parse stack source perm kwargs
          = Except.error (RunErr.parseFault f)
        ∧ ∀ (src : String) (c : PyErr),
            RunErr.parseFault f ≠ RunErr.codeError src c) ∧
    (∀ (code : String) (body : List Stmt) (last : Stmt) (lastVal : PyExpr)
        (e : PyErr),
        parse source (perm.getD defaultPermission) = Except.ok (code, body) →
        List.getLast? body = some last → last.value? = some lastVal →
        execStmts (ambientContext stack kwargs) (Dict.ofList [])
          (List.dropLast body) = Except.error e →
        run parse stack source perm kwargs
          = Except.error (RunErr.codeError code e)) ∧
    (∀ (code : String) (body : List Stmt) (last : Stmt) (lastVal : PyExpr)
        (l : Dict) (e : PyErr),
        parse source (perm.getD defaultPermission) = Except.ok (code, body) →
        List.getLast? body = some last → last.value? = some lastVal →
        execStmts (ambientContext stack kwargs) (Dict.ofList [])
          (List.dropLast body) = Except.ok l →
        evalExpr (ambientContext stack kwargs) l lastVal = Except.error e →
        run parse stack source perm kwargs
          = Except.error (RunErr.codeError code e)) ∧
    (∀ (code : String) (body : List Stmt) (last : Stmt) (e : PyErr),
        parse source (perm.getD defaultPermission) = Except.ok (code, body) →
        List.getLast? body = some last → last.value? = Option.none →
        execStmts (ambientContext stack kwargs) (Dict.ofList []) body
          = Except.error e →
        run parse stack source perm kwargs
          = Except.error (RunErr.codeError code e)) := by
  refine ⟨?_, ?_, ?_, ?_⟩
  · intro f hparse
    refine ⟨?_, ?_⟩
    · unfold run
      rw [hparse]
    · intro src c h
      cases h
  · intro code body last lastVal e hparse hlast hval hexec
    unfold run
    rw [hparse]
    simp only [hlast, hval, hexec]
  · intro code body last lastVal l e hparse hlast hval hexec heval
    unfold run
    rw [hparse]
    simp only [hlast, hval, hexec, heval]
  · intro code body last e hparse hlast hval hexec
    unfold run
    rw [hparse]
    simp only [hlast, hval, hexec]

/-- Claim C5 witness: a parser fault propagates unwrapped; a NameError
while executing the preceding statements, while evaluating the trailing
expression, or while executing a program with a valueless trailing
statement each surface as a CodeError carrying the source. -/
theorem run_fault_wrapping_witness :
    run (fun _ _ => Except.error (ParseFault.invalidSource "bad"))
      [] "(" Option.none (Dict.ofList [])
      = Except.error (RunErr.parseFault (ParseFault.invalidSource "bad"))
    ∧ run (fun _ _ => Except.ok ("b\n1",
          [Stmt.exprStmt (PyExpr.name "b"), Stmt.exprStmt (PyExpr.const 1)]))
        [] "b\n1" Option.none (Dict.ofList [])
        = Except.error (RunErr.codeError "b\n1" (PyErr.nameError "b"))
    ∧ run (fun _ _ => Except.ok ("c", [Stmt.exprStmt (PyExpr.name "c")]))
        [] "c" Option.none (Dict.ofList [])
        = Except.error (RunErr.codeError "c" (PyErr.nameError "c"))
    ∧ run (fun _ _ => Except.ok ("d\npass",
          [Stmt.exprStmt (PyExpr.name "d"), Stmt.passStmt]))
        [] "d\npass" Option.none (Dict.ofList [])
        = Except.error (RunErr.codeError "d\npass" (PyErr.nameError "d")) := by
  refine ⟨?_, ?_, ?_, ?_⟩
  · exact ((run_fault_wrapping
      (fun _ _ => Except.error (ParseFault.invalidSource "bad"))
      [] "(" Option.none (Dict.ofList [])).1
      (ParseFault.invalidSource "bad") rfl).1
  · exact (run_fault_wrapping
      (fun _ _ => Except.ok ("b\n1",
          [Stmt.exprStmt (PyExpr.name "b"), Stmt.exprStmt (PyExpr.const 1)]))
      [] "b\n1" Option.none (Dict.ofList [])).2.1
      "b\n1" [Stmt.exprStmt (PyExpr.name "b"), Stmt.exprStmt (PyExpr.const 1)]
      (Stmt.exprStmt (PyExpr.const 1)) (PyExpr.const 1) (PyErr.nameError "b")
      rfl rfl rfl rfl
  · exact (run_fault_wrapping
      (fun _ _ => Except.ok ("c", [Stmt.exprStmt (PyExpr.name "c")]))
      [] "c" Option.none (Dict.ofList [])).2.2.1
      "c" [Stmt.exprStmt (PyExpr.name "c")]
      (Stmt.exprStmt (PyExpr.name "c")) (PyExpr.name "c")
      (Dict.ofList []) (PyErr.nameError "c") rfl rfl rfl rfl rfl
  · exact (run_fault_wrapping
      (fun _ _ => Except.ok ("d\npass",
          [Stmt.exprStmt (PyExpr.name "d"), Stmt.passStmt]))
      [] "d\npass" Option.none (Dict.ofList [])).2.2.2
      "d\npass" [Stmt.exprStmt (PyExpr.name "d"), Stmt.passStmt]
      Stmt.passStmt (PyErr.nameError "d") rfl rfl rfl rfl

/-- Claim C6: after a scoped context block exits, normally or via a
fault, the stack and hence `get_context` are exactly what they were
before the block began, and the pushed frame is the current flattened
context updated with the new bindings. -/
theorem context_scope_restores {ε α : Type} (stack : ContextStack)
    (kwargs : Dict) (body : Except ε α) :
    (contextScope stack kwargs body).2 = stack
    ∧ get_context (contextScope stack kwargs body).2 = get_context stack
    ∧ get_context (context_push stack kwargs)
        = Dict.updateAll (get_context stack) kwargs := by
  have hpop : (contextScope stack kwargs body).2 = stack := by
    cases body <;> rfl
  exact ⟨hpop, by rw [hpop], rfl⟩

/-- Claim C7: for every callable that terminates and returns a value
that round-trips through the serialization, `sandbox_call` with no
timeout returns that same value; for every callable that raises a fault
with message x, `sandbox_call` raises a fault with exactly that
message, not a value and not a different fault. -/
theorem sandbox_call_faithful {α σ : Type} (codec : Codec α σ) :
    (∀ (d : Nat) (v : α),
        codec.from_json_str (codec.to_json_str v) = v →
        sandbox_call codec (FuncBehavior.returns (ε := Exc) d v) Option.none
          = some (CallOutcome.mk (SandboxResult.value v) false)) ∧
    (∀ (d : Nat) (s : String),
        sandbox_call (α := α) codec (FuncBehavior.raises d (Exc.mk s))
            Option.none
          = some (CallOutcome.mk (SandboxResult.fault (Exc.mk s)) false)) := by
  constructor
  · intro d v h
    simp [sandbox_call, workerMsg, readQueue, h]
  · intro d s
    simp [sandbox_call, workerMsg, readQueue]

/-- Claim C7 witness: the identity codec round-trips 42, so the
sandboxed call returns 42 as a direct call would; a callable raising a
fault with message x surfaces that exact message. -/
theorem sandbox_call_faithful_witness :
    sandbox_call intCodec (FuncBehavior.returns (ε := Exc) 2 (42 : Int))
        Option.none
      = some (CallOutcome.mk (SandboxResult.value (42 : Int)) false)
    ∧ sandbox_call (α := Int) intCodec (FuncBehavior.raises 2 (Exc.mk "x"))
        Option.none
      = some (CallOutcome.mk (SandboxResult.fault (Exc.mk "x")) false) :=
  ⟨(sandbox_call_faithful intCodec).1 2 42 rfl,
   (sandbox_call_faithful intCodec).2 2 "x"⟩

/-- Claim C8: a callable that has not completed when the timeout bound
expires makes `sandbox_call` terminate the worker and raise a
TimeoutError naming the configured duration; no outcome of
`sandbox_call` ever leaves the worker running; and a fault raised
within the bound surfaces as that fault, not as a timeout. -/
theorem sandbox_call_timeout_enforced {α σ : Type} (codec : Codec α σ) :
    (∀ (beh : FuncBehavior α Exc) (t : Nat),
        completesWithin beh t = false →
        sandbox_call codec beh (some t)
          = some (CallOutcome.mk
              (SandboxResult.timeoutError (timeoutMessage t)) false)) ∧
    (∀ (d t : Nat) (e : Exc), d ≤ t →
        sandbox_call (α := α) codec (FuncBehavior.raises d e) (some t)
          = some (CallOutcome.mk (SandboxResult.fault e) false)) ∧
    (∀ (beh : FuncBehavior α Exc) (bound : Option Nat)
        (out : CallOutcome α Exc),
        sandbox_call codec beh bound = some out → out.workerAlive = false) := by
  refine ⟨?_, ?_, ?_⟩
  · intro beh t h
    simp [sandbox_call, h]
  · intro d t e h
    simp [sandbox_call, completesWithin, h, workerMsg, readQueue]
  · intro beh bound out h
    match bound, beh with
    | Option.none, FuncBehavior.returns d v =>
        simp [sandbox_call, workerMsg, readQueue] at h
        rw [← h]
    | Option.none, FuncBehavior.raises d e =>
        simp [sandbox_call, workerMsg, readQueue] at h
        rw [← h]
    | Option.none, FuncBehavior.diverges =>
        simp [sandbox_call, workerMsg] at h
    | some t, beh =>
        by_cases hc : completesWithin beh t
        · match beh with
          | FuncBehavior.returns d v =>
              simp [sandbox_call, hc, workerMsg, readQueue] at h
              rw [← h]
          | FuncBehavior.raises d e =>
              simp [sandbox_call, hc, workerMsg, readQueue] at h
              rw [← h]
          | FuncBehavior.diverges =>
              simp [completesWithin] at hc
        · simp [sandbox_call, hc] at h
          rw [← h]

/-- Claim C8 witness: a diverging callable under a 3 second bound times
out with the message naming 3 seconds and the worker terminated; a
division-by-zero fault raised immediately under a 5 second bound
surfaces as that fault; a returned outcome leaves no worker running. -/
theorem sandbox_call_timeout_enforced_witness :
    sandbox_call intCodec (FuncBehavior.diverges (α := Int) (ε := Exc))
        (some 3)
      = some (CallOutcome.mk
          (SandboxResult.timeoutError (timeoutMessage 3)) false)
    ∧ sandbox_call (α := Int) intCodec
        (FuncBehavior.raises 0 (Exc.mk "division by zero")) (some 5)
      = some (CallOutcome.mk
          (SandboxResult.fault (Exc.mk "division by zero")) false)
    ∧ (CallOutcome.mk (α := Int) (ε := Exc) (SandboxResult.value (7 : Int))
          false).workerAlive
        = false :=
  ⟨(sandbox_call_timeout_enforced intCodec).1 FuncBehavior.diverges 3 rfl,
   (sandbox_call_timeout_enforced intCodec).2.1 0 5
     (Exc.mk "division by zero") (by decide),
   (sandbox_call_timeout_enforced intCodec).2.2
     (FuncBehavior.returns 1 (7 : Int)) (some 2)
     (CallOutcome.mk (SandboxResult.value (7 : Int)) false) rfl⟩

/-- Claim C1 (refuted by the code): `sandbox_run` passes the timeout to
`sandbox_call` under the keyword `time`, which is not its `timeout`
parameter.  Hence at source "time" with timeout 5 and a run duration of
100 seconds, the call does not raise a TimeoutError but returns
normally, and the evaluated code reads the injected binding "time" as
the value 5 instead of failing with a NameError: so the timeout is not
enforced and an extra name beyond the caller-supplied bindings is
visible to the code. -/
theorem sandbox_run_time_keyword_bug :
    sandbox_run idDictCodec
      (fun _ _ => Except.ok ("time", [Stmt.exprStmt (PyExpr.name "time")]))
      [] "time" Option.none (some 5) (Dict.ofList []) 100
      = some (CallOutcome.mk
          (SandboxResult.value (Dict.ofList [("__result__", Val.int 5)]))
          false)
    ∧ run (fun _ _ => Except.ok ("time", [Stmt.exprStmt (PyExpr.name "time")]))
        [] "time" Option.none
        (Dict.updateAll (Dict.ofList [("time", timeArgVal (some 5))])
          (Dict.ofList []))
      = Except.ok (Dict.ofList [("__result__", Val.int 5)]) := by
  constructor
  · rfl
  · rfl
